import Mathlib

/-!
Verification of the CryptoPulse repository: a shallow embedding of the
screening path (`app.py`) and the ingestion path (`screener/views.py`,
`screener/models.py`), with theorems settling the specification's claims.

Prices and volumes are modelled as rationals; timestamps as strings.
A fetched bar frame in the screening path is abstracted by its sequence
of close prices, since `screen_stocks` reads only the `Close` column and
the frame-emptiness test.
-/

namespace CryptoPulse

/-! ### Embedding of `app.py` -/

/-- Smoothing factor used by `pandas.ewm(span=s, adjust=False)`: alpha = 2/(s+1). -/
def alphaOfSpan (s : ℕ) : ℚ := 2 / (s + 1)

/-- Final value of `closes.ewm(span, adjust=False).mean()`: the recursive EMA
seeded with the first close, evaluated at the last element.  Empty input never
occurs in `screen_stocks` (guarded by `stock_data.empty`); 0 is a dummy. -/
def emaLast (alpha : ℚ) : List ℚ → ℚ
  | [] => 0
  | c :: cs => cs.foldl (fun prev x => alpha * x + (1 - alpha) * prev) c

/-- The per-symbol pass test of `screen_stocks` (app.py lines 53-72): the five
EMAs at the final bar, strictly descending by span, and last close ≥ EMA20. -/
def screenOne (closes : List ℚ) : Bool :=
  let ema20 := emaLast (alphaOfSpan 20) closes
  let ema25 := emaLast (alphaOfSpan 25) closes
  let ema30 := emaLast (alphaOfSpan 30) closes
  let ema35 := emaLast (alphaOfSpan 35) closes
  let ema40 := emaLast (alphaOfSpan 40) closes
  let close := closes.getLastD 0
  decide (ema20 > ema25) && decide (ema25 > ema30) && decide (ema30 > ema35) &&
    decide (ema35 > ema40) && decide (close ≥ ema20)

/-- Outcome of `yf.download` for one ticker in the screening path: either a bar
frame (abstracted by its close column; empty list = empty frame) or a raised
exception carrying its text. -/
inductive FetchOutcome where
  | bars (closes : List ℚ)
  | raise (msg : String)
deriving DecidableEq

/-- Mutable state of the `screen_stocks` loop: the accumulating `result` list
and the lines printed by the `except` branch. -/
structure ScreenState where
  result : List String
  log : List String
deriving DecidableEq

/-- One iteration of the `for ticker in tickers` loop of `screen_stocks`:
empty frame → `continue`; pass → append ticker; raised exception → caught and
logged as `Error processing {ticker}: {e}`. -/
def processTicker (fetch : String → FetchOutcome) (st : ScreenState) (ticker : String) :
    ScreenState :=
  match fetch ticker with
  | .raise e => { st with log := st.log ++ ["Error processing " ++ ticker ++ ": " ++ e] }
  | .bars closes =>
    if closes.isEmpty then st
    else if screenOne closes then { st with result := st.result ++ [ticker] } else st

/-- `screen_stocks` (app.py lines 44-78), parameterised by the fetcher. -/
def screen_stocks (fetch : String → FetchOutcome) (tickers : List String) : ScreenState :=
  tickers.foldl (processTicker fetch) { result := [], log := [] }

/-- `get_index_tickers` (app.py lines 10-21): `list(set(sp500 + nasdaq + djia))`,
modelled up to ordering as deduplication of the concatenation. -/
def get_index_tickers (sp500 nasdaq djia : List String) : List String :=
  (sp500 ++ nasdaq ++ djia).dedup

/-! ### Specification-side EMA

`emaSpec` follows the spec's words (section 4.1): EMA₀ = close₀ and
EMAₜ = α·closeₜ + (1−α)·EMAₜ₋₁, as an indexed recursion over the sequence. -/

/-- The spec's recursive EMA of a close-price sequence at index `t`. -/
def emaSpec (alpha : ℚ) (closes : List ℚ) : ℕ → ℚ
  | 0 => closes.headD 0
  | t + 1 => alpha * closes.getD (t + 1) 0 + (1 - alpha) * emaSpec alpha closes t

/-- The spec's pass condition at the final bar: strict chain
ema20 > ema25 > ema30 > ema35 > ema40 and close_last ≥ ema20, with each EMA
given by the spec's recursion evaluated at the last index. -/
def specPass (closes : List ℚ) : Prop :=
  emaSpec (alphaOfSpan 20) closes (closes.length - 1) >
      emaSpec (alphaOfSpan 25) closes (closes.length - 1) ∧
  emaSpec (alphaOfSpan 25) closes (closes.length - 1) >
      emaSpec (alphaOfSpan 30) closes (closes.length - 1) ∧
  emaSpec (alphaOfSpan 30) closes (closes.length - 1) >
      emaSpec (alphaOfSpan 35) closes (closes.length - 1) ∧
  emaSpec (alphaOfSpan 35) closes (closes.length - 1) >
      emaSpec (alphaOfSpan 40) closes (closes.length - 1) ∧
  closes.getLastD 0 ≥ emaSpec (alphaOfSpan 20) closes (closes.length - 1)

instance (closes : List ℚ) : Decidable (specPass closes) := by
  unfold specPass; infer_instance

/-- Whether one ticker is appended to `result` by its loop iteration. -/
def tickerPasses (fetch : String → FetchOutcome) (t : String) : Bool :=
  match fetch t with
  | .raise _ => false
  | .bars closes => !closes.isEmpty && screenOne closes

/-- The log lines produced by one ticker's loop iteration. -/
def tickerLog (fetch : String → FetchOutcome) (t : String) : List String :=
  match fetch t with
  | .raise e => ["Error processing " ++ t ++ ": " ++ e]
  | .bars _ => []

/-! ### Embedding of `screener/views.py` (ingestion path) -/

/-- One OHLCV bar as fetched by `yf.download` in `get_stock_data`. -/
structure Bar where
  bOpen : ℚ
  bHigh : ℚ
  bLow : ℚ
  bClose : ℚ
  bVolume : ℚ
  bTimestamp : String
deriving DecidableEq

/-- The record dictionary built per bar in `get_stock_data` and
`get_stock_data_alphavantage` before calling `insert_data`. -/
structure BarRecord where
  symbol : String
  price_open : ℚ
  price_high : ℚ
  price_low : ℚ
  price_close : ℚ
  volume : ℚ
  timestamp : String
  timezone : String
deriving DecidableEq

/-- A persisted `StockData` row (screener/models.py): the record's fields plus
the boolean time-bucket flags, each defaulting to `False`. -/
structure StockDataRow where
  symbol : String
  price_open : ℚ
  price_high : ℚ
  price_low : ℚ
  price_close : ℚ
  volume : ℚ
  timestamp : String
  timezone : String
  m1 : Bool := false
  m3 : Bool := false
  m5 : Bool := false
  m15 : Bool := false
  m30 : Bool := false
  m45 : Bool := false
  h1 : Bool := false
  h2 : Bool := false
  h4 : Bool := false
  h8 : Bool := false
  h12 : Bool := false
  h16 : Bool := false
  d1 : Bool := false
  d2 : Bool := false
  d3 : Bool := false
  d4 : Bool := false
  d5 : Bool := false
  d6 : Bool := false
  w1 : Bool := false
  w2 : Bool := false
  w3 : Bool := false
  w4 : Bool := false
deriving DecidableEq

/-- The boolean time-bucket flag values of one row, in declaration order. -/
def rowFlags (r : StockDataRow) : List Bool :=
  [r.m1, r.m3, r.m5, r.m15, r.m30, r.m45, r.h1, r.h2, r.h4, r.h8, r.h12, r.h16,
   r.d1, r.d2, r.d3, r.d4, r.d5, r.d6, r.w1, r.w2, r.w3, r.w4]

/-- All boolean flags of a row are `False`. -/
def flagsAllFalse (r : StockDataRow) : Bool :=
  (rowFlags r).all (fun b => b = false)

/-- `StockDataView.insert_data`: `StockData(**data)` built from a record dict
that carries no flag key, so every flag takes its model default `False`. -/
def insert_data (r : BarRecord) : StockDataRow :=
  { symbol := r.symbol, price_open := r.price_open, price_high := r.price_high,
    price_low := r.price_low, price_close := r.price_close, volume := r.volume,
    timestamp := r.timestamp, timezone := r.timezone }

/-- The record dict built for one yfinance row in `get_stock_data`. -/
def recordOfBar (symbol : String) (b : Bar) : BarRecord :=
  { symbol := symbol, price_open := b.bOpen, price_high := b.bHigh,
    price_low := b.bLow, price_close := b.bClose, volume := b.bVolume,
    timestamp := b.bTimestamp, timezone := "UTC" }

/-- `StockDataView.get_stock_data` (views.py lines 67-91): downloads the bar
frame for one symbol, inserts one row per bar, returns `True`.  The fetcher is
a parameter; a fetch failure surfaces as an empty frame (yfinance catches
per-ticker download errors and returns an empty frame). -/
def get_stock_data (fetchBars : String → List Bar) (symbol : String) :
    List StockDataRow × Bool :=
  ((fetchBars symbol).map (fun b => insert_data (recordOfBar symbol b)), true)

/-- `StockDataView.fetch_and_insert_data` (views.py lines 94-102): iterates the
symbol file and calls `get_stock_data` per symbol; returns all inserted rows. -/
def fetch_and_insert_data (fetchBars : String → List Bar) (symbols : List String) :
    List StockDataRow :=
  symbols.flatMap (fun s => (get_stock_data fetchBars s).1)

/-- `StockDataView.get` (views.py lines 104-106): runs the batch synchronously
and answers with the fixed confirmation string. -/
def StockDataView_get (fetchBars : String → List Bar) (symbols : List String) :
    List StockDataRow × String :=
  (fetch_and_insert_data fetchBars symbols, "Data fetched and inserted successfully.")

/-- The values dict of one Alpha Vantage time-series entry
(keys "1. open" … "5. volume"). -/
structure AVValues where
  avOpen : ℚ
  avHigh : ℚ
  avLow : ℚ
  avClose : ℚ
  avVolume : ℚ
deriving DecidableEq

/-- An Alpha Vantage response: the Meta Data time-zone field and, when the
"Time Series (1min)" key is present, its entries in dict (insertion) order as
timestamp-values pairs. -/
structure AVResponse where
  metaTimezone : String
  series : Option (List (String × AVValues))
deriving DecidableEq

/-- Time zone chosen by `get_stock_data_alphavantage`: the Meta Data field,
or "US/Eastern" when that field is falsy (empty). -/
def avTimezone (resp : AVResponse) : String :=
  if resp.metaTimezone = "" then "US/Eastern" else resp.metaTimezone

/-- The record dict built for one time-series entry. -/
def avRecord (symbol tz : String) (e : String × AVValues) : BarRecord :=
  { symbol := symbol, price_open := e.2.avOpen, price_high := e.2.avHigh,
    price_low := e.2.avLow, price_close := e.2.avClose, volume := e.2.avVolume,
    timestamp := e.1, timezone := tz }

/-- What the Python variable `data` holds when `get_stock_data_alphavantage`
returns: `none` models `None`; `Sum.inl` the still-bound provider response;
`Sum.inr` a per-bar record dict (the loop rebinds `data` to it). -/
def AVReturn := Option (AVResponse ⊕ BarRecord)

/-- One loop iteration of `get_stock_data_alphavantage`: rebinds the `data`
variable to the entry's record dict and inserts one row. -/
def avStep (symbol tz : String) (st : (AVResponse ⊕ BarRecord) × List StockDataRow)
    (e : String × AVValues) : (AVResponse ⊕ BarRecord) × List StockDataRow :=
  (Sum.inr (avRecord symbol tz e), st.2 ++ [insert_data (avRecord symbol tz e)])

/-- `StockDataView.get_stock_data_alphavantage` (views.py lines 43-65).
If the time-series section is present, the loop rebinds `data` to each entry's
record dict and inserts a row per entry, then `return data`; otherwise it
returns `None`.  Result: the returned value and the inserted rows. -/
def get_stock_data_alphavantage (symbol : String) (resp : AVResponse) :
    AVReturn × List StockDataRow :=
  match resp.series with
  | none => (none, [])
  | some entries =>
    let final := entries.foldl (avStep symbol (avTimezone resp)) (Sum.inl resp, [])
    (some final.1, final.2)

/-! ### Embedding of `screener/models.py` (schema metadata) -/

/-- A Django column type as declared in `StockData`. -/
inductive ColType where
  | charField (maxLength : Nat)
  | decimalField (maxDigits : Nat) (decimalPlaces : Nat)
  | dateTimeField
  | booleanField (default : Bool)
deriving DecidableEq

/-- True for boolean columns. -/
def ColType.isBoolean : ColType → Bool
  | .booleanField _ => true
  | _ => false

/-- The columns of the `StockData` model, in declaration order. -/
def stockDataColumns : List (String × ColType) :=
  [("symbol", .charField 10),
   ("price_open", .decimalField 26 16),
   ("price_high", .decimalField 26 16),
   ("price_low", .decimalField 26 16),
   ("price_close", .decimalField 26 16),
   ("volume", .decimalField 14 4),
   ("timestamp", .dateTimeField),
   ("timezone", .charField 20),
   ("m1", .booleanField false), ("m3", .booleanField false),
   ("m5", .booleanField false), ("m15", .booleanField false),
   ("m30", .booleanField false), ("m45", .booleanField false),
   ("h1", .booleanField false), ("h2", .booleanField false),
   ("h4", .booleanField false), ("h8", .booleanField false),
   ("h12", .booleanField false), ("h16", .booleanField false),
   ("d1", .booleanField false), ("d2", .booleanField false),
   ("d3", .booleanField false), ("d4", .booleanField false),
   ("d5", .booleanField false), ("d6", .booleanField false),
   ("w1", .booleanField false), ("w2", .booleanField false),
   ("w3", .booleanField false), ("w4", .booleanField false)]

/-- The names of the boolean flag columns, in declaration order. -/
def stockDataFlagColumns : List String :=
  (stockDataColumns.filter (fun c => c.2.isBoolean)).map (fun c => c.1)

/-- The index definitions of `StockData.Meta`, each as its field-name list. -/
def stockDataIndexes : List (List String) :=
  [["symbol"] ++ stockDataFlagColumns,
   ["symbol", "timestamp"],
   ["symbol"]]

/-- Example fetcher for witnesses: symbol "B" has one bar, all others none. -/
def exampleFetchBars : String → List Bar := fun s =>
  if s = "B" then
    [{ bOpen := 1, bHigh := 2, bLow := 0, bClose := 1, bVolume := 100,
       bTimestamp := "2024-01-02 09:30:00" }]
  else []

/-- Example time-series entry for witnesses. -/
def exampleAVEntry : String × AVValues :=
  ("2024-01-02 09:30:00", { avOpen := 1, avHigh := 2, avLow := 0, avClose := 1,
                            avVolume := 100 })

/-- Example provider response for witnesses: one time-series entry. -/
def exampleAVResponse : AVResponse :=
  { metaTimezone := "US/Eastern", series := some [exampleAVEntry] }

/-! ### Closed forms for the `screen_stocks` loop -/

theorem processTicker_result (fetch : String → FetchOutcome) (st : ScreenState) (t : String) :
    (processTicker fetch st t).result =
      st.result ++ (if tickerPasses fetch t then [t] else []) := by
  unfold processTicker tickerPasses
  cases h : fetch t with
  | raise e => simp
  | bars closes =>
    by_cases hempty : closes.isEmpty <;> by_cases hpass : screenOne closes <;>
      simp [hempty, hpass]

theorem processTicker_log (fetch : String → FetchOutcome) (st : ScreenState) (t : String) :
    (processTicker fetch st t).log = st.log ++ tickerLog fetch t := by
  unfold processTicker tickerLog
  cases h : fetch t with
  | raise e => simp
  | bars closes =>
    by_cases hempty : closes.isEmpty <;> by_cases hpass : screenOne closes <;>
      simp [hempty, hpass]

theorem foldl_processTicker_result (fetch : String → FetchOutcome) (tickers : List String)
    (st : ScreenState) :
    (tickers.foldl (processTicker fetch) st).result =
      st.result ++ tickers.filter (tickerPasses fetch) := by
  induction tickers generalizing st with
  | nil => simp
  | cons t ts ih =>
    simp only [List.foldl_cons, ih, processTicker_result]
    by_cases h : tickerPasses fetch t <;> simp [h]

theorem foldl_processTicker_log (fetch : String → FetchOutcome) (tickers : List String)
    (st : ScreenState) :
    (tickers.foldl (processTicker fetch) st).log =
      st.log ++ tickers.flatMap (tickerLog fetch) := by
  induction tickers generalizing st with
  | nil => simp
  | cons t ts ih =>
    simp only [List.foldl_cons, ih, processTicker_log, List.flatMap_cons, List.append_assoc]

/-- The result of `screen_stocks` is exactly the passing tickers, in order. -/
theorem screen_stocks_result (fetch : String → FetchOutcome) (tickers : List String) :
    (screen_stocks fetch tickers).result = tickers.filter (tickerPasses fetch) := by
  unfold screen_stocks
  simpa using foldl_processTicker_result fetch tickers { result := [], log := [] }

/-- The log of `screen_stocks` is exactly the error lines of the raising tickers. -/
theorem screen_stocks_log (fetch : String → FetchOutcome) (tickers : List String) :
    (screen_stocks fetch tickers).log = tickers.flatMap (tickerLog fetch) := by
  unfold screen_stocks
  simpa using foldl_processTicker_log fetch tickers { result := [], log := [] }

/-! ### The foldl EMA agrees with the spec's indexed recursion -/

theorem emaSpec_append_left (alpha : ℚ) (l l2 : List ℚ) :
    ∀ t, t < l.length → emaSpec alpha (l ++ l2) t = emaSpec alpha l t := by
  intro t
  induction t with
  | zero =>
    intro ht
    cases l with
    | nil => simp at ht
    | cons c cs => simp [emaSpec]
  | succ t ih =>
    intro ht
    have ht' : t < l.length := Nat.lt_of_succ_lt ht
    simp only [emaSpec, ih ht', List.getD_append _ _ _ _ ht]

theorem emaLast_eq_emaSpec (alpha : ℚ) (closes : List ℚ) (h : closes ≠ []) :
    emaLast alpha closes = emaSpec alpha closes (closes.length - 1) := by
  obtain ⟨c, cs, rfl⟩ : ∃ c cs, closes = c :: cs := by
    cases closes with
    | nil => exact absurd rfl h
    | cons c cs => exact ⟨c, cs, rfl⟩
  clear h
  induction cs using List.reverseRecOn with
  | nil => simp [emaLast, emaSpec]
  | append_singleton ds x ih =>
    have hfold : emaLast alpha (c :: (ds ++ [x])) =
        alpha * x + (1 - alpha) * emaLast alpha (c :: ds) := by
      simp [emaLast, List.foldl_append]
    have hlen : (c :: (ds ++ [x])).length - 1 = ds.length + 1 := by simp
    have hgetD : (c :: (ds ++ [x])).getD (ds.length + 1) 0 = x := by
      have : (c :: (ds ++ [x])) = (c :: ds) ++ [x] := by simp
      rw [this]
      have hl : ((c :: ds) ++ [x]).getD (ds.length + 1) 0 =
          [x].getD ((ds.length + 1) - (c :: ds).length) 0 := by
        apply List.getD_append_right
        simp
      simp only [hl]
      simp
    have hprev : emaSpec alpha (c :: (ds ++ [x])) ds.length =
        emaSpec alpha (c :: ds) ds.length := by
      have : (c :: (ds ++ [x])) = (c :: ds) ++ [x] := by simp
      rw [this]
      exact emaSpec_append_left alpha (c :: ds) [x] ds.length (by simp)
    rw [hlen, hfold, ih]
    simp only [emaSpec, hgetD, hprev]
    simp

/-! ### Helper lemmas for the ingestion loop -/

theorem avStep_foldl_snd (symbol tz : String) (entries : List (String × AVValues))
    (st0 : AVResponse ⊕ BarRecord) (acc : List StockDataRow) :
    (entries.foldl (avStep symbol tz) (st0, acc)).2 =
      acc ++ entries.map (fun e => insert_data (avRecord symbol tz e)) := by
  induction entries generalizing st0 acc with
  | nil => simp
  | cons e es ih => simp [List.foldl_cons, avStep, ih]

theorem avStep_foldl_fst (symbol tz : String) (es : List (String × AVValues))
    (e : String × AVValues) (st0 : AVResponse ⊕ BarRecord) (acc : List StockDataRow) :
    ((es ++ [e]).foldl (avStep symbol tz) (st0, acc)).1 =
      Sum.inr (avRecord symbol tz e) := by
  rw [List.foldl_append]
  rfl

/-! ### Claim theorems -/

/-- C1: for every non-empty close sequence, `screen_stocks`'s per-symbol test
passes iff the five spec-recursion EMAs (spans 20/25/30/35/40, alpha = 2/(s+1),
seeded with the first close) at the final bar satisfy the strict chain
ema20 > ema25 > ema30 > ema35 > ema40 and the last close is ≥ ema20; and every
symbol in the returned result met that exact condition (so ties fail). -/
theorem ema_screener_pass_iff :
    (∀ closes : List ℚ, closes ≠ [] → (screenOne closes = true ↔ specPass closes)) ∧
    (∀ (fetch : String → FetchOutcome) (tickers : List String) (t : String),
      t ∈ (screen_stocks fetch tickers).result →
      ∃ closes, fetch t = FetchOutcome.bars closes ∧ closes ≠ [] ∧ specPass closes) := by
  have h1 : ∀ closes : List ℚ, closes ≠ [] → (screenOne closes = true ↔ specPass closes) := by
    intro closes h
    have he : ∀ a : ℚ, emaLast a closes = emaSpec a closes (closes.length - 1) :=
      fun a => emaLast_eq_emaSpec a closes h
    unfold screenOne specPass
    simp only [he]
    simp [and_assoc]
  refine ⟨h1, ?_⟩
  intro fetch tickers t ht
  rw [screen_stocks_result] at ht
  have hp := (List.mem_filter.mp ht).2
  unfold tickerPasses at hp
  cases hf : fetch t with
  | raise e => rw [hf] at hp; simp at hp
  | bars closes =>
    rw [hf] at hp
    simp only [Bool.and_eq_true, Bool.not_eq_true'] at hp
    have hne : closes ≠ [] := by
      intro hc
      rw [hc] at hp
      simp at hp
    exact ⟨closes, rfl, hne, (h1 closes hne).mp hp.2⟩

/-- C1 witness: the two-bar sequence [1, 2] passes, with the spec-side chain
holding at the final bar. -/
theorem ema_screener_pass_iff_witness : specPass [(1 : ℚ), 2] :=
  (ema_screener_pass_iff.1 [(1 : ℚ), 2] (by simp)).mp (by
    simp only [screenOne, emaLast, alphaOfSpan, List.foldl, List.getLastD]
    norm_num)

/-- C2: on a constant close sequence of positive length every spec-recursion
EMA equals that constant at every index, the per-symbol test fails, and a
symbol whose fetch yields such a flat sequence never appears in the result. -/
theorem flat_sequence_fails (c : ℚ) (n : ℕ) (hn : 0 < n) :
    (∀ alpha : ℚ, ∀ t < n, emaSpec alpha (List.replicate n c) t = c) ∧
    screenOne (List.replicate n c) = false ∧
    (∀ (fetch : String → FetchOutcome) (tickers : List String) (t : String),
      fetch t = FetchOutcome.bars (List.replicate n c) →
      t ∉ (screen_stocks fetch tickers).result) := by
  have hspec : ∀ alpha : ℚ, ∀ t < n, emaSpec alpha (List.replicate n c) t = c := by
    intro alpha t
    induction t with
    | zero =>
      intro ht
      obtain ⟨m, rfl⟩ : ∃ m, n = m + 1 := ⟨n - 1, (Nat.succ_pred_eq_of_pos ht).symm⟩
      simp [emaSpec, List.replicate_succ]
    | succ t ih =>
      intro ht
      have ht' : t < n := Nat.lt_of_succ_lt ht
      have hget : (List.replicate n c).getD (t + 1) 0 = c := by
        rw [List.getD_eq_getElem _ _ (by simpa using ht)]
        simp
      simp only [emaSpec, hget, ih ht']
      ring
  have hfold : ∀ (alpha : ℚ) (m : ℕ),
      (List.replicate m c).foldl (fun prev x => alpha * x + (1 - alpha) * prev) c = c := by
    intro alpha m
    induction m with
    | zero => rfl
    | succ m ih =>
      rw [List.replicate_succ, List.foldl_cons]
      have hc : alpha * c + (1 - alpha) * c = c := by ring
      rw [hc, ih]
  have hema : ∀ alpha : ℚ, emaLast alpha (List.replicate n c) = c := by
    intro alpha
    obtain ⟨m, rfl⟩ : ∃ m, n = m + 1 := ⟨n - 1, (Nat.succ_pred_eq_of_pos hn).symm⟩
    rw [List.replicate_succ]
    simpa [emaLast] using hfold alpha m
  have hscreen : screenOne (List.replicate n c) = false := by
    unfold screenOne
    simp only [hema]
    simp
  refine ⟨hspec, hscreen, ?_⟩
  intro fetch tickers t hf hmem
  rw [screen_stocks_result] at hmem
  have hp := (List.mem_filter.mp hmem).2
  unfold tickerPasses at hp
  rw [hf] at hp
  simp [hscreen] at hp

/-- C2 witness: a flat sequence of three bars at price 5 fails the test. -/
theorem flat_sequence_fails_witness : screenOne (List.replicate 3 (5 : ℚ)) = false :=
  (flat_sequence_fails 5 3 (by decide)).2.1

/-- C3: a ticker whose fetch yields an empty bar frame is skipped: its loop
iteration leaves the state untouched (so the remaining tickers are screened
exactly as if it were absent, and no exception escapes — the screener is a
total function), and the ticker never appears in the result. -/
theorem empty_bars_skipped (fetch : String → FetchOutcome) (t : String)
    (rest tickers : List String) (h : fetch t = FetchOutcome.bars []) :
    screen_stocks fetch (t :: rest) = screen_stocks fetch rest ∧
    t ∉ (screen_stocks fetch tickers).result := by
  constructor
  · unfold screen_stocks
    rw [List.foldl_cons]
    have hstep : processTicker fetch { result := [], log := [] } t =
        { result := [], log := [] } := by
      unfold processTicker
      rw [h]
      simp
    rw [hstep]
  · rw [screen_stocks_result]
    intro hmem
    have hp := (List.mem_filter.mp hmem).2
    unfold tickerPasses at hp
    rw [h] at hp
    simp at hp

/-- C3 witness: with every fetch empty, screening ["X", "Y"] equals
screening ["Y"], and "X" is not in the result. -/
theorem empty_bars_skipped_witness :
    screen_stocks (fun _ => FetchOutcome.bars []) ["X", "Y"] =
      screen_stocks (fun _ => FetchOutcome.bars []) ["Y"] ∧
    "X" ∉ (screen_stocks (fun _ => FetchOutcome.bars []) ["X", "Y"]).result :=
  ⟨(empty_bars_skipped (fun _ => FetchOutcome.bars []) "X" ["Y"] ["X", "Y"] rfl).1,
   (empty_bars_skipped (fun _ => FetchOutcome.bars []) "X" ["Y"] ["X", "Y"] rfl).2⟩

/-- C4: a ticker whose fetch raises is caught: the line
`Error processing {ticker}: {e}` is logged, the ticker is excluded from the
result, and the remaining tickers produce exactly the same result list. -/
theorem error_logged_and_skipped (fetch : String → FetchOutcome) (t e : String)
    (rest tickers : List String) (h : fetch t = FetchOutcome.raise e) :
    ("Error processing " ++ t ++ ": " ++ e) ∈ (screen_stocks fetch (t :: rest)).log ∧
    t ∉ (screen_stocks fetch tickers).result ∧
    (screen_stocks fetch (t :: rest)).result = (screen_stocks fetch rest).result := by
  have hlog : tickerLog fetch t = ["Error processing " ++ t ++ ": " ++ e] := by
    unfold tickerLog
    rw [h]
  have hpass : tickerPasses fetch t = false := by
    unfold tickerPasses
    rw [h]
  refine ⟨?_, ?_, ?_⟩
  · rw [screen_stocks_log]
    simp [List.flatMap_cons, hlog]
  · rw [screen_stocks_result]
    intro hmem
    have hp := (List.mem_filter.mp hmem).2
    rw [hpass] at hp
    exact Bool.false_ne_true hp
  · rw [screen_stocks_result, screen_stocks_result, List.filter_cons, hpass]
    simp

/-- C4 witness: a fetcher that always raises "boom" logs the line for "X",
excludes "X", and leaves the result of the remaining batch unchanged. -/
theorem error_logged_and_skipped_witness :
    ("Error processing " ++ "X" ++ ": " ++ "boom") ∈
      (screen_stocks (fun _ => FetchOutcome.raise "boom") ["X", "Y"]).log ∧
    "X" ∉ (screen_stocks (fun _ => FetchOutcome.raise "boom") ["X", "Y"]).result :=
  ⟨(error_logged_and_skipped (fun _ => FetchOutcome.raise "boom") "X" "boom" ["Y"]
      ["X", "Y"] rfl).1,
   (error_logged_and_skipped (fun _ => FetchOutcome.raise "boom") "X" "boom" ["Y"]
      ["X", "Y"] rfl).2.1⟩

/-- C5: `get_index_tickers` returns each symbol of the three lists exactly
once, and nothing else: the multiplicity of any string in the result is 1 if
it occurs in some input list and 0 otherwise. -/
theorem index_tickers_dedup (sp500 nasdaq djia : List String) (x : String) :
    List.count x (get_index_tickers sp500 nasdaq djia) =
      if x ∈ sp500 ∨ x ∈ nasdaq ∨ x ∈ djia then 1 else 0 := by
  unfold get_index_tickers
  rw [List.count_dedup]
  simp [List.mem_append, or_assoc]

/-- C6: in the ingestion batch, a symbol whose fetch yields no bars contributes
no rows, and the remaining symbols are fetched and stored exactly as if the
failing symbol were absent (a fetch failure surfaces as an empty frame). -/
theorem fetch_failure_batch_continues (fetchBars : String → List Bar)
    (s : String) (pre post : List String) (h : fetchBars s = []) :
    fetch_and_insert_data fetchBars (pre ++ s :: post) =
      fetch_and_insert_data fetchBars pre ++ fetch_and_insert_data fetchBars post := by
  unfold fetch_and_insert_data
  rw [List.flatMap_append, List.flatMap_cons]
  simp [get_stock_data, h]

/-- C6 witness: symbol "A" fetches no bars, symbol "B" is still processed. -/
theorem fetch_failure_batch_continues_witness :
    fetch_and_insert_data exampleFetchBars ([] ++ "A" :: ["B"]) =
      fetch_and_insert_data exampleFetchBars [] ++
        fetch_and_insert_data exampleFetchBars ["B"] :=
  fetch_failure_batch_continues exampleFetchBars "A" [] ["B"] rfl

/-- C7: the ingestion GET endpoint runs the whole fetch-and-store batch within
the request and always answers with the same fixed plaintext string, whatever
the fetcher, the symbol file, or how many rows were inserted. -/
theorem ingestion_endpoint_fixed_response (f g : String → List Bar)
    (symbols others : List String) :
    (StockDataView_get f symbols).1 = fetch_and_insert_data f symbols ∧
    (StockDataView_get f symbols).2 = "Data fetched and inserted successfully." ∧
    (StockDataView_get f symbols).2 = (StockDataView_get g others).2 :=
  ⟨rfl, rfl, rfl⟩

/-- C8: every row built by `insert_data` keeps all boolean bucket flags at
their default `False`; the yfinance batch inserts exactly one such row per
fetched bar; and the Alpha Vantage path inserts exactly one such row per
time-series entry — rows are only ever created, never updated or deleted. -/
theorem inserted_rows_flags_default :
    (∀ r : BarRecord, flagsAllFalse (insert_data r) = true) ∧
    (∀ (fetchBars : String → List Bar) (symbols : List String),
      (fetch_and_insert_data fetchBars symbols).all flagsAllFalse = true ∧
      (fetch_and_insert_data fetchBars symbols).length =
        (symbols.map (fun s => (fetchBars s).length)).sum) ∧
    (∀ (symbol : String) (resp : AVResponse) (entries : List (String × AVValues)),
      resp.series = some entries →
      (get_stock_data_alphavantage symbol resp).2 =
        entries.map (fun e => insert_data (avRecord symbol (avTimezone resp) e))) := by
  refine ⟨fun r => rfl, ?_, ?_⟩
  · intro fetchBars symbols
    constructor
    · rw [List.all_eq_true]
      intro row hrow
      unfold fetch_and_insert_data get_stock_data at hrow
      simp only [List.mem_flatMap, List.mem_map] at hrow
      obtain ⟨s, -, b, -, rfl⟩ := hrow
      rfl
    · unfold fetch_and_insert_data get_stock_data
      simp [List.length_flatMap, Function.comp_def]
  · intro symbol resp entries hs
    unfold get_stock_data_alphavantage
    rw [hs]
    simp [avStep_foldl_snd]

/-- C8 witness: one provider entry yields exactly the one default-flag row. -/
theorem inserted_rows_flags_default_witness :
    (get_stock_data_alphavantage "AAA" exampleAVResponse).2 =
      [exampleAVEntry].map
        (fun e => insert_data (avRecord "AAA" (avTimezone exampleAVResponse) e)) :=
  inserted_rows_flags_default.2.2 "AAA" exampleAVResponse [exampleAVEntry] rfl

/-- C9 counterexample: the `StockData` model declares 22 boolean flag columns,
not 23 as the claim states. -/
theorem stockdata_flag_count_not_23 : ¬ stockDataFlagColumns.length = 23 := by
  decide

/-- C9 (amended): one wide table with fixed decimal-precision price/volume
columns, a timestamp, a timezone label, and exactly 22 boolean flag columns
named m1 … w4, indexed by (symbol + all flag columns) and (symbol, timestamp). -/
theorem stockdata_schema_shape :
    stockDataFlagColumns.length = 22 ∧
    stockDataFlagColumns = ["m1", "m3", "m5", "m15", "m30", "m45",
      "h1", "h2", "h4", "h8", "h12", "h16",
      "d1", "d2", "d3", "d4", "d5", "d6", "w1", "w2", "w3", "w4"] ∧
    (["symbol"] ++ stockDataFlagColumns) ∈ stockDataIndexes ∧
    ["symbol", "timestamp"] ∈ stockDataIndexes ∧
    (∀ p ∈ ["price_open", "price_high", "price_low", "price_close"],
      (p, ColType.decimalField 26 16) ∈ stockDataColumns) ∧
    ("volume", ColType.decimalField 14 4) ∈ stockDataColumns ∧
    ("timestamp", ColType.dateTimeField) ∈ stockDataColumns ∧
    ("timezone", ColType.charField 20) ∈ stockDataColumns := by
  decide

/-- C10: when the time-series section is present with at least one entry,
`get_stock_data_alphavantage` returns the record dict built for the
last-iterated entry — the loop rebinds `data` — not the provider response;
and it returns `None` exactly when the section is absent. -/
theorem alphavantage_returns_last_record :
    (∀ (symbol : String) (resp : AVResponse) (es : List (String × AVValues))
        (e : String × AVValues),
      resp.series = some (es ++ [e]) →
      (get_stock_data_alphavantage symbol resp).1 =
        some (Sum.inr (avRecord symbol (avTimezone resp) e))) ∧
    (∀ (symbol : String) (resp : AVResponse),
      (get_stock_data_alphavantage symbol resp).1 = none ↔ resp.series = none) := by
  constructor
  · intro symbol resp es e hs
    unfold get_stock_data_alphavantage
    rw [hs]
    simp [List.foldl_append, avStep]
  · intro symbol resp
    unfold get_stock_data_alphavantage
    cases hs : resp.series with
    | none => simp [AVReturn]
    | some entries => simp [AVReturn, hs]

/-- C10 witness: with one entry present, the returned value is that entry's
record dict, not the response and not `None`. -/
theorem alphavantage_returns_last_record_witness :
    (get_stock_data_alphavantage "AAA" exampleAVResponse).1 =
      some (Sum.inr (avRecord "AAA" (avTimezone exampleAVResponse) exampleAVEntry)) :=
  alphavantage_returns_last_record.1 "AAA" exampleAVResponse [] exampleAVEntry rfl

end CryptoPulse
